import Mathlib

/-!
Shallow embedding of the Telegram earning-club bot (`src/main.py`).

User records are stored as one JSON blob per user id in a `users` table;
we model the table as an association list keyed by the stringified user id,
with `REPLACE INTO` semantics for saves.  Timestamps
(`datetime.now().timestamp()`) are modelled as integers.  Python strings are
modelled as Lean `String`s, except where the code slices or strips them, in
which case we work on `List Char` (Python's `str` is a sequence of code
points, as is `String.toList`).  `str.isalnum` is modelled over the ASCII
range via `Char.isAlphanum`; this only widens/narrows the letter class, not
the underscore/emptiness behaviour the claims turn on.
-/

namespace Bot

/-- A user record: the fields of `default_user_data` in `get_user`
(src/main.py lines 164-175), plus `custom_username`, which
`handle_username_messages` adds and `show_profile` reads with `.get`
(absent is modelled as `none`).  `join_date` and `last_login` are stored as
formatted date strings in the code; we model them by the timestamp they
format. -/
structure UserRec where
  verified : Bool
  referral_count : Nat
  referrals : List String
  join_date : Int
  first_name : String
  username : String
  last_check : Int
  custom_username : Option String
  referred_by : Option String
  banned : Bool
  last_login : Int
deriving Repr, DecidableEq

/-- The `users` table: one row per stringified user id. -/
abbrev Store := List (String × UserRec)

/-- Row lookup, `SELECT data FROM users WHERE user_id=?`. -/
def storeLookup (s : Store) (uid : String) : Option UserRec :=
  match s with
  | [] => none
  | p :: rest => if p.1 = uid then some p.2 else storeLookup rest uid

/-- Row write, `REPLACE INTO users VALUES (?, ?)` (`save_user`). -/
def storeSave (s : Store) (uid : String) (u : UserRec) : Store :=
  match s with
  | [] => [(uid, u)]
  | p :: rest => if p.1 = uid then (uid, u) :: rest else p :: storeSave rest uid u

/-- Default record created by `get_user` for a first-contact user. -/
def default_user_data (now : Int) : UserRec :=
  { verified := false
    referral_count := 0
    referrals := []
    join_date := now
    first_name := ""
    username := ""
    last_check := now
    custom_username := none
    referred_by := none
    banned := false
    last_login := now }

/-- The function `get_user`: return the stored record, or insert and return the
default record when the user has no row yet.  (The JSON-decode and
missing-field fallbacks of the Python code are invisible in this typed
model: a stored row always carries every field.) -/
def get_user (s : Store) (uid : String) (now : Int) : UserRec × Store :=
  match storeLookup s uid with
  | some u => (u, s)
  | none => (default_user_data now, storeSave s uid (default_user_data now))

/-! String helpers mirroring the Python string operations used by the
handlers, written over `List Char` so that they compute by structural
recursion. -/

/-- Python `str.strip()`: drop leading and trailing whitespace. -/
def pyStrip (s : List Char) : List Char :=
  ((s.dropWhile Char.isWhitespace).reverse.dropWhile Char.isWhitespace).reverse

/-- Python `s.replace(c, "")` for a single-character pattern: remove every
occurrence of `c`. -/
def removeChar (c : Char) (s : List Char) : List Char :=
  s.filter (fun x => x ≠ c)

/-- Python `str.isalnum` (restricted to the ASCII range): non-empty and all
characters alphanumeric. -/
def pyIsAlnum (s : List Char) : Bool :=
  !s.isEmpty && s.all Char.isAlphanum

/-- Python `a.startswith("ref_")`. -/
def strStartsWithRef (a : String) : Bool :=
  a.toList.take 4 == "ref_".toList

/-- Python `a[4:]`. -/
def strDrop4 (a : String) : String :=
  String.mk (a.toList.drop 4)

/-- Numeric value of a digit string. -/
def digitsVal (ds : List Char) : Nat :=
  ds.foldl (fun n c => n * 10 + (c.toNat - 48)) 0

/-- Python `int(text.strip())`, returning `none` where Python raises
`ValueError`: optional sign followed by at least one digit.  (Python also
accepts underscore digit grouping, which no claim exercises.) -/
def pyToInt (s : List Char) : Option Int :=
  match pyStrip s with
  | [] => none
  | '-' :: ds => if !ds.isEmpty && ds.all Char.isDigit then some (-(digitsVal ds : Int)) else none
  | '+' :: ds => if !ds.isEmpty && ds.all Char.isDigit then some (digitsVal ds : Int) else none
  | ds => if ds.all Char.isDigit then some (digitsVal ds : Int) else none

/-! The `/start` handler and its referral block. -/

/-- The referral block of `start` (src/main.py lines 498-528): given the
store after the user's row exists (`s1`), the in-memory user record, the
`is_new_user` flag computed before that row was created, and the raw first
`/start` argument.  Returns the (possibly updated) user record and store.
The referrer id is a key of the `users` table whenever the guard passes, so
the `int(referrer_id)` round-trip of the code is the identity and is
omitted.  The best-effort notification to the referrer has no effect on the
stores and is omitted. -/
def apply_referral (s1 : Store) (uid : String) (user_data : UserRec)
    (is_new_user : Bool) (arg : Option String) : UserRec × Store :=
  match arg with
  | none => (user_data, s1)
  | some a =>
    if strStartsWithRef a && is_new_user then
      let referrer_id := strDrop4 a
      if (storeLookup s1 referrer_id).isSome && referrer_id != uid
          && user_data.referred_by.isNone then
        let gr := get_user s1 referrer_id 0
        let referrer_data := { gr.1 with
          referral_count := gr.1.referral_count + 1
          referrals := gr.1.referrals ++ [uid] }
        let s3 := storeSave gr.2 referrer_id referrer_data
        let user_data := { user_data with referred_by := some referrer_id }
        (user_data, storeSave s3 uid user_data)
      else (user_data, s1)
    else (user_data, s1)

/-- The `/start` handler (src/main.py lines 464-528) as a store transformer.
`arg` is `context.args[0]` when present.  Replies are omitted; only the
effect on the `users` table is modelled. -/
def start (maintenance isAdmin : Bool) (s : Store) (uid fn un : String)
    (arg : Option String) (now : Int) : Store :=
  if maintenance && !isAdmin then s
  else
    let is_new_user := (storeLookup s uid).isNone
    let gu := get_user s uid now
    if gu.1.banned then gu.2
    else
      let user_data := { gu.1 with first_name := fn, username := un, last_check := now }
      let r := apply_referral gu.2 uid user_data is_new_user arg
      storeSave r.2 uid r.1

/-- The `/restart` handler (src/main.py lines 1097-1111): force
re-verification by clearing `verified` and `last_check`. -/
def restart_command (s : Store) (uid : String) (now : Int) : Store :=
  let gu := get_user s uid now
  storeSave gu.2 uid { gu.1 with verified := false, last_check := 0 }

/-! Capability gates of the menu handlers. -/

/-- Guard of `show_withdraw_bots` (src/main.py line 681): the free
withdraw menu renders unless the user is unverified or (outside dev mode)
the live membership re-check fails. -/
def show_withdraw_bots_grants (devMode membershipOk : Bool) (u : UserRec) : Bool :=
  !(!u.verified || (!devMode && !membershipOk))

/-- Guard of `show_all_withdraw_bots` (src/main.py lines 717-722): the
handler for the `all_bots` callback early-returns exactly when
`referral_count < 2`; it performs no other check before rendering the full
list. -/
def show_all_withdraw_bots_grants (u : UserRec) : Bool :=
  !(u.referral_count < 2)

/-- Guard of `show_mining_bots` (src/main.py lines 781-794). -/
def show_mining_bots_grants (devMode membershipOk : Bool) (u : UserRec) : Bool :=
  !(!u.verified || (!devMode && !membershipOk)) && !(u.referral_count < 5)

/-! The membership verifier. -/

/-- Outcome of one `get_chat_member` query: the returned status string, or
an exception from the API call. -/
inductive ChanResult
  | err : ChanResult
  | status : String → ChanResult
deriving Repr, DecidableEq

/-- Whether one channel's query outcome counts as "joined" for
`check_membership`: a status in `['member', 'administrator', 'creator']`;
an exception counts as not joined. -/
def chanOk : ChanResult → Bool
  | .err => false
  | .status st => st == "member" || st == "administrator" || st == "creator"

/-- The function `check_membership` (src/main.py lines 412-429), over the
list of per-channel query outcomes in channel order: the loop returns
`False` at the first channel whose status is outside the allowed set or
whose query raised, and `True` only after every channel passed. -/
def check_membership : List ChanResult → Bool
  | [] => true
  | r :: rest => if chanOk r then check_membership rest else false

/-! The rate limiter. -/

/-- The pruning step of `RateLimiter.check_rate_limit`: keep the
timestamps `t` with `now - t < timedelta(minutes=1)`, i.e. strictly less
than 60 seconds old. -/
def prune_window (w : List Int) (now : Int) : List Int :=
  w.filter (fun t => now - t < 60)

/-- `RateLimiter.check_rate_limit` (src/main.py lines 1623-1646) for one
user: given whether the user is in the in-memory ban set, the user's
recorded window and the current time, return whether the action is allowed
together with the new stored window. -/
def check_rate_limit (bannedSet : Bool) (w : List Int) (now : Int) : Bool × List Int :=
  if bannedSet then (false, w)
  else
    let w' := prune_window w now
    if 10 ≤ w'.length then (false, w')
    else (true, w' ++ [now])

/-- Run a sequence of rate-limit checks (one event per listed time) for a
non-banned user, threading the stored window; returns the verdicts and the
final window. -/
def run_rate_limiter (w : List Int) : List Int → List Bool × List Int
  | [] => ([], w)
  | t :: ts =>
    let r := check_rate_limit false w t
    let rest := run_rate_limiter r.2 ts
    (r.1 :: rest.1, rest.2)

/-! The admin message flow and the username flow, both driven by the
`admin_state` table (at most one pending action per actor, stored as a JSON
blob with keys `action`, `step` and optionally `target_user_id`). -/

/-- A stored pending action; an absent `target_user_id` key is `none`. -/
structure AdminState where
  action : String
  step : String
  target_user_id : Option Int
deriving Repr, DecidableEq

/-- The state written by `handle_admin_send_specific` (src/main.py lines
1169-1184); it overwrites whatever pending action was stored. -/
def handle_admin_send_specific_state : AdminState :=
  { action := "send_specific", step := "user_id", target_user_id := none }

/-- The state written by `handle_admin_send_all` (src/main.py lines
1186-1199). -/
def handle_admin_send_all_state : AdminState :=
  { action := "send_all", step := "message", target_user_id := none }

/-- Which reply the admin-message handler sends back to the admin. -/
inductive AdminReply
  | noAction
  | targetSet (n : Int)
  | invalidId
  | sentOk (n : Int)
  | sendFailed (n : Int)
  | pyError
  | broadcastSummary (sent failed total : Nat)
deriving Repr, DecidableEq

/-- Result of one admin text message: the new stored pending action (`none`
when deleted), the list of (target, text) message dispatch attempts, and
the reply shown to the admin. -/
structure AdminMsgResult where
  state : Option AdminState
  dispatches : List (Int × List Char)
  reply : AdminReply
deriving Repr, DecidableEq

/-- The broadcast loop shared by the `send_all` branch of
`handle_admin_messages` (src/main.py lines 1257-1280) and by
`handle_admin_broadcast` (lines 1296-1316): iterate over every known user,
attempt one send each, count successes and failures.  `sendOk` tells which
recipients' sends succeed.  Returns (success_count, fail_count, attempted
recipients in order). -/
def handle_admin_broadcast (users : List String) (sendOk : String → Bool) :
    Nat × Nat × List String :=
  match users with
  | [] => (0, 0, [])
  | u :: rest =>
    let r := handle_admin_broadcast rest sendOk
    (if sendOk u then r.1 + 1 else r.1,
     if sendOk u then r.2.1 else r.2.1 + 1,
     u :: r.2.2)

/-- The admin branch of `handle_admin_messages` (src/main.py lines
1229-1280), reached when the text was not consumed by the username flow and
the sender is the admin.  `st` is the stored pending action, `text` the
message text, `sendOk` tells whether a direct send to a given id succeeds,
`users`/`sendOkAll` drive the broadcast branch.  In the `send_specific`
"message" step the dispatch is attempted inside `try`, and the pending
action is deleted after the `try/except` regardless of the outcome; a
stored "message" step with no recorded target would raise a `KeyError`
before any dispatch or deletion (`pyError`). -/
def handle_admin_messages (st : Option AdminState) (text : List Char)
    (sendOk : Int → Bool) (users : List String) (sendOkAll : String → Bool) :
    AdminMsgResult :=
  match st with
  | none => ⟨none, [], .noAction⟩
  | some a =>
    if a.action = "send_specific" then
      if a.step = "user_id" then
        match pyToInt text with
        | some n =>
          ⟨some { a with step := "message", target_user_id := some n }, [], .targetSet n⟩
        | none => ⟨some a, [], .invalidId⟩
      else if a.step = "message" then
        match a.target_user_id with
        | some tgt =>
          ⟨none, [(tgt, text)], if sendOk tgt then .sentOk tgt else .sendFailed tgt⟩
        | none => ⟨some a, [], .pyError⟩
      else ⟨some a, [], .noAction⟩
    else if a.action = "send_all" then
      if a.step = "message" then
        let r := handle_admin_broadcast users sendOkAll
        ⟨none, [], .broadcastSummary r.1 r.2.1 users.length⟩
      else ⟨some a, [], .noAction⟩
    else ⟨some a, [], .noAction⟩

/-! The main menu's time-boxed re-verification. -/

/-- Outcome of `show_main_menu` (src/main.py lines 606-635) for the fields
the re-verification touches: the user record as left in the store, whether
`save_user` ran, whether `check_membership` was queried, and whether the
menu was rendered (as opposed to the early "Session expired" return). -/
structure MenuResult where
  user : UserRec
  saved : Bool
  rechecked : Bool
  rendered : Bool
deriving Repr, DecidableEq

/-- The re-verification prologue of `show_main_menu`: when more than 3600
seconds have passed since `last_check`, re-query the membership verifier;
on failure clear `verified`, persist, and return without rendering. -/
def show_main_menu (u : UserRec) (now : Int) (membershipOk : Bool) : MenuResult :=
  if now - u.last_check > 3600 then
    if !membershipOk then ⟨{ u with verified := false }, true, true, false⟩
    else ⟨u, false, true, true⟩
  else ⟨u, false, false, true⟩

/-! The set-custom-username flow. -/

/-- Which reply `handle_username_messages` sends. -/
inductive UsernameReply
  | lenError
  | charError
  | ok (un : List Char)
  | notHandled
deriving Repr, DecidableEq

/-- Python `text.strip().replace("@", "")` from `handle_username_messages`. -/
def clean_username (text : List Char) : List Char :=
  removeChar '@' (pyStrip text)

/-- The function `handle_username_messages` (src/main.py lines 949-991):
when a `set_username`/`waiting` action is pending, validate the cleaned
input (length 3-32, then `username.replace("_", "").isalnum()`); on a
validation failure re-prompt and change nothing; on success store the
username in the user record and delete the pending action.  Returns the
new pending action, the new user record, and the reply. -/
def handle_username_messages (st : Option AdminState) (u : UserRec)
    (text : List Char) : Option AdminState × UserRec × UsernameReply :=
  match st with
  | none => (st, u, .notHandled)
  | some a =>
    if a.action = "set_username" && a.step = "waiting" then
      let username := clean_username text
      if username.length < 3 || 32 < username.length then (st, u, .lenError)
      else if !pyIsAlnum (removeChar '_' username) then (st, u, .charError)
      else (none, { u with custom_username := some (String.mk username) }, .ok username)
    else (st, u, .notHandled)

/-! Store lemmas. -/

theorem storeLookup_save_self (s : Store) (uid : String) (u : UserRec) :
    storeLookup (storeSave s uid u) uid = some u := by
  induction s with
  | nil => simp [storeSave, storeLookup]
  | cons p rest ih =>
    by_cases h : p.1 = uid
    · simp [storeSave, storeLookup, h]
    · simp [storeSave, storeLookup, h, ih]

theorem storeLookup_save_other (s : Store) (uid uid' : String) (u : UserRec)
    (h : uid' ≠ uid) : storeLookup (storeSave s uid u) uid' = storeLookup s uid' := by
  induction s with
  | nil => simp [storeSave, storeLookup, Ne.symm h]
  | cons p rest ih =>
    by_cases hp : p.1 = uid
    · simp [storeSave, storeLookup, hp, Ne.symm h]
    · simp [storeSave, storeLookup, hp, ih]

/-! Basic facts about the referral block. -/

theorem apply_referral_none (s1 : Store) (uid : String) (ud : UserRec)
    (is_new : Bool) : apply_referral s1 uid ud is_new none = (ud, s1) := rfl

theorem apply_referral_not_new (s1 : Store) (uid : String) (ud : UserRec)
    (arg : Option String) : apply_referral s1 uid ud false arg = (ud, s1) := by
  cases arg <;> simp [apply_referral]

theorem apply_referral_guard_fail (s1 : Store) (uid : String) (ud : UserRec)
    (a : String)
    (h : ((storeLookup s1 (strDrop4 a)).isSome && (strDrop4 a != uid)
        && ud.referred_by.isNone) = false) :
    apply_referral s1 uid ud true (some a) = (ud, s1) := by
  simp only [apply_referral, Bool.and_true]
  by_cases hs : strStartsWithRef a
  · simp [hs, h]
  · simp [hs]

/-- C1: for a /start event carrying a referral code (`arg` starts with
`ref_` and decodes to `rid`): if the acting user is not first-contact, or
the decoded referrer id is not in the store, or it equals the user's own
id, or the user already has a `referred_by` value, then the event leaves
the store exactly as a /start without the code would (silent no-op);
otherwise the referrer's `referral_count` grows by exactly 1, the new
user's id is appended to the referrer's `referrals`, and the new user's
`referred_by` is set to the referrer id, with both records persisted. -/
theorem start_referral_spec (s : Store) (uid fn un a rid : String) (now : Int)
    (r : UserRec) (hpre : strStartsWithRef a = true) (hdec : strDrop4 a = rid) :
    (((storeLookup s uid).isSome
        ∨ storeLookup s rid = none
        ∨ rid = uid
        ∨ (∃ u, storeLookup s uid = some u ∧ u.referred_by.isSome)) →
      start false false s uid fn un (some a) now
        = start false false s uid fn un none now)
    ∧ (storeLookup s uid = none → storeLookup s rid = some r → rid ≠ uid →
      storeLookup (start false false s uid fn un (some a) now) rid
        = some { r with referral_count := r.referral_count + 1
                        referrals := r.referrals ++ [uid] }
      ∧ storeLookup (start false false s uid fn un (some a) now) uid
        = some { default_user_data now with
                    first_name := fn, username := un, last_check := now
                    referred_by := some rid }) := by
  constructor
  · intro h
    cases hu : storeLookup s uid with
    | some u =>
      simp only [start, Bool.and_self, Bool.not_false, Bool.false_and,
        if_false, hu, get_user, Option.isNone_some,
        apply_referral_not_new, apply_referral_none]
    | none =>
      have hfail : rid = uid ∨ storeLookup s rid = none := by
        rcases h with h1 | h2 | h3 | h4
        · rw [hu] at h1; exact absurd h1 (by simp)
        · exact Or.inr h2
        · exact Or.inl h3
        · rcases h4 with ⟨u, hu', _⟩; rw [hu] at hu'; exact absurd hu' (by simp)
      simp only [start, Bool.false_and, if_false, hu, get_user,
        Option.isNone_none, apply_referral_none]
      have hguard : ((storeLookup (storeSave s uid (default_user_data now))
            (strDrop4 a)).isSome
          && (strDrop4 a != uid)
          && ({ default_user_data now with
              first_name := fn, username := un, last_check := now } :
              UserRec).referred_by.isNone) = false := by
        rw [hdec]
        rcases hfail with hf | hf
        · subst hf
          simp
        · by_cases hru : rid = uid
          · subst hru; simp
          · rw [storeLookup_save_other s uid rid (default_user_data now) hru, hf]
            simp
      rw [apply_referral_guard_fail _ _ _ _ hguard]
  · intro hu href hne
    have hs1 : storeLookup (storeSave s uid (default_user_data now)) rid = some r := by
      rw [storeLookup_save_other s uid rid (default_user_data now) hne, href]
    have hbne : (rid != uid) = true := by simp [hne]
    simp only [start, hu, get_user, Option.isNone_none, apply_referral, hpre,
      Bool.true_and, hdec, hs1, hbne, Option.isSome_some, Bool.and_self]
    simp [default_user_data, storeLookup_save_other, storeLookup_save_self, hne]

/-- A concrete run of the referral path: user 100 starts with `ref_7` while
only user 7 is in the store; user 7 gains the referral and user 100 is
marked as referred. -/
theorem start_referral_spec_witness :
    storeLookup (start false false [("7", default_user_data 0)] "100" "Al" "al"
        (some "ref_7") 50) "7"
      = some { default_user_data 0 with referral_count := 1, referrals := ["100"] }
    ∧ storeLookup (start false false [("7", default_user_data 0)] "100" "Al" "al"
        (some "ref_7") 50) "100"
      = some { default_user_data 50 with
               first_name := "Al", username := "al", last_check := 50,
               referred_by := some "7" } := by
  have h := (start_referral_spec [("7", default_user_data 0)] "100" "Al" "al"
      "ref_7" "7" 50 (default_user_data 0) (by decide) (by decide)).2
      (by decide) (by decide) (by decide)
  exact ⟨h.1, h.2⟩

/-! The referral-count invariant. -/

/-- Consistency of one record: `referral_count == len(referrals)`. -/
def recInv (u : UserRec) : Prop :=
  u.referral_count = u.referrals.length

instance (u : UserRec) : Decidable (recInv u) := by
  unfold recInv; infer_instance

/-- Consistency of every record in the store. -/
def storeInv (s : Store) : Prop :=
  ∀ p ∈ s, recInv p.2

instance (s : Store) : Decidable (storeInv s) := by
  unfold storeInv; infer_instance

theorem storeInv_save (s : Store) (uid : String) (u : UserRec)
    (hs : storeInv s) (hu : recInv u) : storeInv (storeSave s uid u) := by
  induction s with
  | nil =>
    intro p hp
    simp only [storeSave] at hp
    have h1 : p = (uid, u) := List.mem_singleton.mp hp
    rw [h1]; exact hu
  | cons q rest ih =>
    intro p hp
    simp only [storeSave] at hp
    by_cases hq : q.1 = uid
    · rw [if_pos hq] at hp
      rcases List.mem_cons.mp hp with h1 | h2
      · rw [h1]; exact hu
      · exact hs p (List.mem_cons_of_mem q h2)
    · rw [if_neg hq] at hp
      rcases List.mem_cons.mp hp with h1 | h2
      · rw [h1]; exact hs q (List.mem_cons_self q rest)
      · exact ih (fun x hx => hs x (List.mem_cons_of_mem q hx)) p h2

theorem storeInv_lookup (s : Store) (uid : String) (u : UserRec)
    (hs : storeInv s) (h : storeLookup s uid = some u) : recInv u := by
  induction s with
  | nil => simp [storeLookup] at h
  | cons q rest ih =>
    by_cases hq : q.1 = uid
    · simp only [storeLookup, if_pos hq] at h
      cases h
      exact hs q (List.mem_cons_self q rest)
    · simp only [storeLookup, if_neg hq] at h
      exact ih (fun x hx => hs x (List.mem_cons_of_mem q hx)) h

theorem get_user_inv (s : Store) (uid : String) (now : Int) (hs : storeInv s) :
    recInv (get_user s uid now).1 ∧ storeInv (get_user s uid now).2 := by
  unfold get_user
  cases hu : storeLookup s uid with
  | some u => exact ⟨storeInv_lookup s uid u hs hu, hs⟩
  | none =>
    refine ⟨by simp [recInv, default_user_data], ?_⟩
    exact storeInv_save s uid _ hs (by simp [recInv, default_user_data])

theorem apply_referral_inv (s1 : Store) (uid : String) (ud : UserRec)
    (is_new : Bool) (arg : Option String) (hs : storeInv s1) (hu : recInv ud) :
    recInv (apply_referral s1 uid ud is_new arg).1
    ∧ storeInv (apply_referral s1 uid ud is_new arg).2 := by
  cases arg with
  | none => exact ⟨hu, hs⟩
  | some a =>
    unfold apply_referral
    by_cases h1 : (strStartsWithRef a && is_new) = true
    · simp only [h1, if_true]
      by_cases hg : ((storeLookup s1 (strDrop4 a)).isSome && (strDrop4 a != uid)
          && ud.referred_by.isNone) = true
      · simp only [hg, if_true]
        have hget := get_user_inv s1 (strDrop4 a) 0 hs
        have hr : recInv { (get_user s1 (strDrop4 a) 0).1 with
            referral_count := (get_user s1 (strDrop4 a) 0).1.referral_count + 1
            referrals := (get_user s1 (strDrop4 a) 0).1.referrals ++ [uid] } := by
          have := hget.1
          simp only [recInv] at this ⊢
          simp [this]
        refine ⟨hu, ?_⟩
        exact storeInv_save _ _ _ (storeInv_save _ _ _ hget.2 hr) hu
      · simp only [hg, if_false]
        exact ⟨hu, hs⟩
    · simp only [h1, if_false]
      exact ⟨hu, hs⟩

/-- C2: the consistency invariant `referral_count == len(referrals)` holds
for the default record and is preserved, for every record in the store, by
any `/start` event (the only operation that changes either field: on a
successful referral both change together) and by `/restart`. -/
theorem referral_count_invariant (m adm : Bool) (s : Store)
    (uid fn un : String) (arg : Option String) (now : Int) (hs : storeInv s) :
    recInv (default_user_data now)
    ∧ storeInv (start m adm s uid fn un arg now)
    ∧ storeInv (restart_command s uid now) := by
  refine ⟨by simp [recInv, default_user_data], ?_, ?_⟩
  · unfold start
    by_cases hm : (m && !adm) = true
    · simp [hm, hs]
    · rw [if_neg hm]
      have hg := get_user_inv s uid now hs
      by_cases hb : (get_user s uid now).1.banned = true
      · simp [hb, hg.2]
      · rw [if_neg hb]
        have hud : recInv { (get_user s uid now).1 with
            first_name := fn, username := un, last_check := now } := hg.1
        have har := apply_referral_inv (get_user s uid now).2 uid _
          ((storeLookup s uid).isNone) arg hg.2 hud
        exact storeInv_save _ _ _ har.2 har.1
  · unfold restart_command
    have hg := get_user_inv s uid now hs
    exact storeInv_save _ _ _ hg.2 hg.1

/-- A concrete run of the invariant: after the referral event of the C1
witness every stored record still satisfies
`referral_count == len(referrals)`. -/
theorem referral_count_invariant_witness :
    storeInv (start false false [("7", default_user_data 0)] "100" "Al" "al"
      (some "ref_7") 50) :=
  (referral_count_invariant false false [("7", default_user_data 0)] "100"
    "Al" "al" (some "ref_7") 50 (by decide)).2.1

/-! The all_withdraw capability (C3). -/

/-- A verified-free user holding 2 referrals. -/
def unverifiedWithTwoRefs : UserRec :=
  { default_user_data 0 with referral_count := 2, referrals := ["1", "2"] }

/-- C3 counterexample: the claim states that the full withdrawable-bots
list is granted iff `verified ∧ referral_count ≥ 2`, and in particular
that an unverified user with 2 referrals is denied.  The `all_bots`
callback handler grants the list to exactly such a user: the biconditional
fails at this record. -/
theorem all_withdraw_requires_verified_cex :
    ¬ (show_all_withdraw_bots_grants unverifiedWithTwoRefs = true
        ↔ (unverifiedWithTwoRefs.verified = true
            ∧ 2 ≤ unverifiedWithTwoRefs.referral_count)) := by
  decide

/-- C3 amended: the `all_bots` handler grants the full list iff
`referral_count ≥ 2`; it never consults `verified`.  (The `verified` check
guards only the parent free-withdraw menu, `show_withdraw_bots`, which is
where the button to this handler is rendered.) -/
theorem all_withdraw_grants_iff (u : UserRec) (devMode membershipOk : Bool) :
    (show_all_withdraw_bots_grants u = true ↔ 2 ≤ u.referral_count)
    ∧ (show_withdraw_bots_grants devMode membershipOk u = true
        → u.verified = true) := by
  constructor
  · simp [show_all_withdraw_bots_grants]
  · simp [show_withdraw_bots_grants]
    intro h _
    exact h

/-- A concrete instance of the amended C3 statement: the unverified
2-referral user is granted the full list, while the free-withdraw menu
guard passes only for a verified user. -/
theorem all_withdraw_grants_iff_witness :
    show_all_withdraw_bots_grants unverifiedWithTwoRefs = true
    ∧ ({ default_user_data 0 with verified := true } : UserRec).verified
        = true :=
  ⟨(all_withdraw_grants_iff unverifiedWithTwoRefs false false).1.mpr
      (by decide),
   (all_withdraw_grants_iff { default_user_data 0 with verified := true }
      false true).2 (by decide)⟩

/-! The membership verifier (C4). -/

/-- C4: `check_membership` returns `true` exactly when every channel's
query returned a status in `{member, administrator, creator}`; one failing
or erroring channel anywhere in the list forces `false`, so membership in
a strict subset of the channels yields `false`. -/
theorem check_membership_all_or_nothing (rs : List ChanResult) :
    (check_membership rs = true ↔ ∀ r ∈ rs, chanOk r = true)
    ∧ (∀ pre post r, chanOk r = false
        → check_membership (pre ++ r :: post) = false) := by
  constructor
  · induction rs with
    | nil => simp [check_membership]
    | cons r rest ih =>
      by_cases h : chanOk r
      · simp [check_membership, h, ih]
      · simp [check_membership, h]
  · intro pre post r hr
    induction pre with
    | nil => simp [check_membership, hr]
    | cons q qs ih =>
      by_cases h : chanOk q
      · simp [check_membership, h, ih]
      · simp [check_membership, h]

/-- The spec's concrete scenario: channels `[A, B, C]`, the user is a
member of A and B but not C (status `left`); the overall check is
`false`. -/
theorem check_membership_witness :
    check_membership
      ([ChanResult.status "member", ChanResult.status "member"]
        ++ ChanResult.status "left" :: []) = false :=
  (check_membership_all_or_nothing []).2
    [ChanResult.status "member", ChanResult.status "member"] []
    (ChanResult.status "left") (by decide)

/-! The rate limiter (C5). -/

/-- C5: each check first discards the timestamps `t` with `now - t ≥ 60`,
then rejects when 10 or more remain and otherwise appends `now` and
allows; consequently, starting from an empty window, 10 actions at seconds
0 to 9 are all allowed, an 11th at second 59 (within 59 seconds of the
first) is rejected, and a 12th at second 60 (60 seconds after the first
action) is allowed again. -/
theorem rate_limit_spec :
    (∀ (w : List Int) (now : Int),
      prune_window w now = w.filter (fun t => ¬ (60 ≤ now - t))
      ∧ ((check_rate_limit false w now).1 = true
          ↔ (prune_window w now).length < 10)
      ∧ (check_rate_limit false w now).2 =
          (if (prune_window w now).length < 10
            then prune_window w now ++ [now]
            else prune_window w now))
    ∧ (run_rate_limiter [] [0, 1, 2, 3, 4, 5, 6, 7, 8, 9, 59, 60]).1
        = [true, true, true, true, true, true, true, true, true, true,
           false, true] := by
  constructor
  · intro w now
    refine ⟨?_, ?_, ?_⟩
    · unfold prune_window
      congr 1
      funext t
      simp [not_le]
    · unfold check_rate_limit
      by_cases h : 10 ≤ (prune_window w now).length
      · simp [h, Nat.not_lt.mpr h]
      · simp [h, Nat.lt_of_not_le h]
    · unfold check_rate_limit
      by_cases h : 10 ≤ (prune_window w now).length
      · simp [h, if_neg (Nat.not_lt.mpr h)]
      · simp [h, if_pos (Nat.lt_of_not_le h)]
  · decide

/-! The admin send-to-specific flow (C6) and the broadcast summary (C7). -/

/-- C6: starting the send-to-specific flow and submitting a numeric id then
a message text dispatches exactly one message to that id and clears the
pending action, whether or not the dispatch succeeds (`sendOk` is
arbitrary); a non-numeric id at the target step re-prompts with the
invalid-id reply, leaves the stored pending action unchanged, and
dispatches nothing. -/
theorem admin_send_specific_flow (idText msgText badText : List Char)
    (n : Int) (sendOk : Int → Bool) (users : List String)
    (sendOkAll : String → Bool)
    (hid : pyToInt idText = some n) (hbad : pyToInt badText = none) :
    ((handle_admin_messages (some handle_admin_send_specific_state) idText
        sendOk users sendOkAll).state
      = some { action := "send_specific", step := "message",
               target_user_id := some n }
    ∧ (handle_admin_messages (some handle_admin_send_specific_state) idText
        sendOk users sendOkAll).dispatches = []
    ∧ (handle_admin_messages
        (some { action := "send_specific", step := "message",
                target_user_id := some n }) msgText
        sendOk users sendOkAll).dispatches = [(n, msgText)]
    ∧ (handle_admin_messages
        (some { action := "send_specific", step := "message",
                target_user_id := some n }) msgText
        sendOk users sendOkAll).state = none)
    ∧ ((handle_admin_messages (some handle_admin_send_specific_state) badText
        sendOk users sendOkAll).state = some handle_admin_send_specific_state
    ∧ (handle_admin_messages (some handle_admin_send_specific_state) badText
        sendOk users sendOkAll).dispatches = []
    ∧ (handle_admin_messages (some handle_admin_send_specific_state) badText
        sendOk users sendOkAll).reply = AdminReply.invalidId) := by
  refine ⟨⟨?_, ?_, ?_, ?_⟩, ⟨?_, ?_, ?_⟩⟩ <;>
    simp [handle_admin_messages, handle_admin_send_specific_state, hid, hbad]

/-- The spec's concrete round trip: start send-to-specific, submit `42`,
submit `hi`; one dispatch to user 42 and the pending action is cleared
even though the send fails; submitting `abc` instead re-prompts and leaves
the pending action in place. -/
theorem admin_send_specific_flow_witness :
    ((handle_admin_messages (some handle_admin_send_specific_state)
        "42".toList (fun _ => false) [] (fun _ => false)).state
      = some { action := "send_specific", step := "message",
               target_user_id := some 42 }
    ∧ (handle_admin_messages (some handle_admin_send_specific_state)
        "42".toList (fun _ => false) [] (fun _ => false)).dispatches = []
    ∧ (handle_admin_messages
        (some { action := "send_specific", step := "message",
                target_user_id := some 42 }) "hi".toList
        (fun _ => false) [] (fun _ => false)).dispatches
      = [(42, "hi".toList)]
    ∧ (handle_admin_messages
        (some { action := "send_specific", step := "message",
                target_user_id := some 42 }) "hi".toList
        (fun _ => false) [] (fun _ => false)).state = none)
    ∧ ((handle_admin_messages (some handle_admin_send_specific_state)
        "abc".toList (fun _ => false) [] (fun _ => false)).state
      = some handle_admin_send_specific_state
    ∧ (handle_admin_messages (some handle_admin_send_specific_state)
        "abc".toList (fun _ => false) [] (fun _ => false)).dispatches = []
    ∧ (handle_admin_messages (some handle_admin_send_specific_state)
        "abc".toList (fun _ => false) [] (fun _ => false)).reply
      = AdminReply.invalidId) :=
  admin_send_specific_flow "42".toList "hi".toList "abc".toList 42
    (fun _ => false) [] (fun _ => false) (by decide) (by decide)

/-- C7: the broadcast loop attempts every known user in order (a failed
send never aborts the remaining sends), and with `K` failing recipients
out of `N` the reported summary is `sent = N - K`, `failed = K`,
`total = N`. -/
theorem broadcast_summary (users : List String) (sendOk : String → Bool) :
    (handle_admin_broadcast users sendOk).2.2 = users
    ∧ (handle_admin_broadcast users sendOk).2.1
        = (users.filter (fun u => !(sendOk u))).length
    ∧ (handle_admin_broadcast users sendOk).1
        + (handle_admin_broadcast users sendOk).2.1 = users.length
    ∧ (handle_admin_broadcast users sendOk).1
        = users.length - (users.filter (fun u => !(sendOk u))).length := by
  induction users with
  | nil => simp [handle_admin_broadcast]
  | cons u rest ih =>
    obtain ⟨ih1, ih2, ih3, ih4⟩ := ih
    by_cases h : sendOk u = true
    · refine ⟨?_, ?_, ?_, ?_⟩ <;>
        simp [handle_admin_broadcast, h, ih1, ih2] <;> omega
    · refine ⟨?_, ?_, ?_, ?_⟩ <;>
        simp [handle_admin_broadcast, h, ih1, ih2] <;> omega

/-! The main-menu time-boxed re-verification (C8). -/

/-- C8: when a menu render finds `now - last_check > 3600`, the handler
re-queries the membership verifier before trusting `verified`; if that
re-check fails, `verified` is cleared and the changed record persisted
(and the menu is not rendered). -/
theorem menu_recheck_spec (u : UserRec) (now : Int) (membershipOk : Bool)
    (h : now - u.last_check > 3600) :
    (show_main_menu u now membershipOk).rechecked = true
    ∧ (membershipOk = false →
        (show_main_menu u now membershipOk).user.verified = false
        ∧ (show_main_menu u now membershipOk).saved = true
        ∧ (show_main_menu u now membershipOk).rendered = false) := by
  unfold show_main_menu
  rw [if_pos h]
  cases membershipOk <;> simp

/-- A concrete stale-session render: last check at time 0, render at time
4000 with the membership re-check failing; `verified` is cleared and
persisted. -/
theorem menu_recheck_spec_witness :
    (show_main_menu { default_user_data 0 with verified := true } 4000
        false).rechecked = true
    ∧ (show_main_menu { default_user_data 0 with verified := true } 4000
        false).user.verified = false
    ∧ (show_main_menu { default_user_data 0 with verified := true } 4000
        false).saved = true := by
  have h := menu_recheck_spec { default_user_data 0 with verified := true }
    4000 false (by decide)
  exact ⟨h.1, (h.2 rfl).1, (h.2 rfl).2.1⟩

/-! The set-custom-username flow (C9). -/

/-- The pending action stored by the set-username callback handler. -/
def set_username_state : AdminState :=
  { action := "set_username", step := "waiting", target_user_id := none }

/-- C9 counterexample: the claim says an input of length 3-32 made only of
letters, digits and underscores is stored.  The input `___` has length 3
and contains only underscores, yet the handler rejects it with the
character-error re-prompt and changes nothing: the code validates
`username.replace("_", "").isalnum()`, and the empty string is not
`isalnum`. -/
theorem username_validation_cex :
    ("___".toList.length = 3 ∧ ∀ c ∈ "___".toList, c = '_')
    ∧ handle_username_messages (some set_username_state)
        (default_user_data 0) "___".toList
      = (some set_username_state, default_user_data 0,
         UsernameReply.charError) := by
  decide

/-- C9 amended: in the set-custom-username flow, an input whose cleaned
form (stripped, `@` removed) has length outside 3-32, or fails
`replace("_", "").isalnum()` — i.e. contains a character that is not a
letter, digit or underscore, or consists entirely of underscores — is
rejected with a re-prompt and causes no state change (pending action and
user record untouched); any other input is stored as `custom_username` and
the pending action is cleared. -/
theorem username_validation_spec (u : UserRec) (text : List Char) :
    ((clean_username text).length < 3 ∨ 32 < (clean_username text).length →
      handle_username_messages (some set_username_state) u text
        = (some set_username_state, u, UsernameReply.lenError))
    ∧ (3 ≤ (clean_username text).length → (clean_username text).length ≤ 32 →
        pyIsAlnum (removeChar '_' (clean_username text)) = false →
        handle_username_messages (some set_username_state) u text
          = (some set_username_state, u, UsernameReply.charError))
    ∧ (3 ≤ (clean_username text).length → (clean_username text).length ≤ 32 →
        pyIsAlnum (removeChar '_' (clean_username text)) = true →
        handle_username_messages (some set_username_state) u text
          = (none,
             { u with custom_username := some (String.mk (clean_username text)) },
             UsernameReply.ok (clean_username text))) := by
  refine ⟨?_, ?_, ?_⟩
  · intro h
    simp [handle_username_messages, set_username_state, h]
  · intro h1 h2 h3
    simp [handle_username_messages, set_username_state, h3,
      Nat.not_lt.mpr h1, Nat.not_lt.mpr h2]
  · intro h1 h2 h3
    simp [handle_username_messages, set_username_state, h3,
      Nat.not_lt.mpr h1, Nat.not_lt.mpr h2]

/-- A concrete accepted and a concrete rejected username: `ab_1` is
stored and the pending action cleared; `a!` (too short and with a bad
character) is rejected with no state change. -/
theorem username_validation_spec_witness :
    handle_username_messages (some set_username_state) (default_user_data 0)
      " @ab_1 ".toList
      = (none,
         { default_user_data 0 with custom_username := some "ab_1" },
         UsernameReply.ok "ab_1".toList)
    ∧ handle_username_messages (some set_username_state) (default_user_data 0)
      "a!".toList
      = (some set_username_state, default_user_data 0,
         UsernameReply.lenError) := by
  refine ⟨?_, ?_⟩
  · exact (username_validation_spec (default_user_data 0)
      " @ab_1 ".toList).2.2 (by decide) (by decide) (by decide)
  · exact (username_validation_spec (default_user_data 0) "a!".toList).1
      (by decide)

/-! The /restart frame conditions (C10). -/

theorem start_of_not_new (m adm : Bool) (s : Store) (uid fn un : String)
    (arg : Option String) (now : Int) (h : (storeLookup s uid).isSome) :
    start m adm s uid fn un arg now = start m adm s uid fn un none now := by
  cases hu : storeLookup s uid with
  | none => rw [hu] at h; simp at h
  | some u =>
    simp only [start, hu, get_user, Option.isNone_some,
      apply_referral_not_new, apply_referral_none]

/-- C10: `/restart` on a user with a stored record persists the record
with exactly `verified := false` and `last_check := 0` changed and every
other field (`referral_count`, `referrals`, `referred_by`, `banned`,
`custom_username`, `join_date`, names, `last_login`) unchanged; and since
the user's row remains in the store, a later `/start` carrying any
referral code acts exactly like a `/start` without one — restarting never
makes a user referral-eligible again. -/
theorem restart_frame (s : Store) (uid : String) (u : UserRec) (now : Int)
    (h : storeLookup s uid = some u) :
    storeLookup (restart_command s uid now) uid
      = some { u with verified := false, last_check := 0 }
    ∧ ∀ (fn un : String) (arg : Option String) (now2 : Int),
        start false false (restart_command s uid now) uid fn un arg now2
          = start false false (restart_command s uid now) uid fn un none
              now2 := by
  have hget : get_user s uid now = (u, s) := by simp [get_user, h]
  have hrw : restart_command s uid now
      = storeSave s uid { u with verified := false, last_check := 0 } := by
    unfold restart_command
    rw [hget]
  refine ⟨?_, ?_⟩
  · rw [hrw, storeLookup_save_self]
  · intro fn un arg now2
    apply start_of_not_new
    rw [hrw, storeLookup_save_self]
    rfl

/-- A verified user with two referrals, referred by user 9. -/
def restartDemoUser : UserRec :=
  { default_user_data 3 with
    verified := true
    last_check := 8
    referral_count := 2
    referrals := ["1", "2"]
    referred_by := some "9" }

/-- A store holding user 9 and the demo user as user 7. -/
def restartDemoStore : Store :=
  [("9", default_user_data 0), ("7", restartDemoUser)]

/-- A concrete `/restart` of a verified user with two referrals: only
`verified` and `last_check` change, the referral state survives, and a
later `/start ref_9` on the restarted store is a no-op referral. -/
theorem restart_frame_witness :
    storeLookup (restart_command restartDemoStore "7" 99) "7"
      = some { restartDemoUser with verified := false, last_check := 0 }
    ∧ start false false (restart_command restartDemoStore "7" 99) "7" "B" "b"
        (some "ref_9") 120
      = start false false (restart_command restartDemoStore "7" 99) "7" "B"
          "b" none 120 := by
  have h := restart_frame restartDemoStore "7" restartDemoUser 99 (by decide)
  exact ⟨h.1, h.2 "B" "b" (some "ref_9") 120⟩

end Bot
